import Mathlib

/-!
Shallow embedding of the client-side API layer of the repository
(the `ApiClient` / `ApiError` / `validators` module, `frontend` api utility
file): request dispatch with timeout and error normalisation, TTL-based
response caching, cache clearing, and the JSON-object input validator.

JavaScript values that the module manipulates are modelled as follows:
JSON-serialisable data is the inductive `Json`; JS string/number timestamps
are `Int`; the network interaction performed by `fetch` (which is external
to the module) is an oracle argument `FetchOutcome` describing how the one
fetch of a `request` call resolves; the module-global `Map` cache is an
association list threaded explicitly.
-/

/-- JSON values (the integer fragment of JSON numbers; the code under
verification never manipulates non-integer numbers). -/
inductive Json where
  | null : Json
  | bool (b : Bool) : Json
  | num (n : Int) : Json
  | str (s : String) : Json
  | arr (elems : List Json) : Json
  | obj (fields : List (String × Json)) : Json

namespace Json

/-- JS property lookup `o[key]` restricted to our JSON domain: `some v` when
the value is an object having the field (last occurrence wins, as in a JS
object literal / `JSON.parse` with duplicate keys), `none` ("undefined")
otherwise. -/
def lookupLast : List (String × Json) → String → Option Json
  | [], _ => none
  | (k, v) :: rest, key =>
    match lookupLast rest key with
    | some r => some r
    | none => if k = key then some v else none

def getField : Json → String → Option Json
  | .obj fields, key => lookupLast fields key
  | _, _ => none

/-- JS truthiness of a JSON value (`undefined` is handled by callers via
`Option`): `null`, `false`, `0` and `""` are falsy; every array and object
(even empty) is truthy. -/
def jsTruthy : Json → Bool
  | .null => false
  | .bool b => b
  | .num n => n != 0
  | .str s => s != ""
  | .arr _ => true
  | .obj _ => true

mutual
/-- JS `String(v)` coercion (used by the `Error` constructor when a non-string
lands in `message`): arrays display as their comma-joined elements with
`null` elements displaying empty, objects as `"[object Object]"`. -/
def jsToDisplay : Json → String
  | .null => "null"
  | .bool b => if b then "true" else "false"
  | .num n => toString n
  | .str s => s
  | .arr elems => jsArrDisplay elems
  | .obj _ => "[object Object]"

/-- Display of one array element inside `Array.prototype.toString`: `null`
displays empty there, unlike at top level. -/
def jsArrElem : Json → String
  | .null => ""
  | .bool b => if b then "true" else "false"
  | .num n => toString n
  | .str s => s
  | .arr elems => jsArrDisplay elems
  | .obj _ => "[object Object]"
termination_by j => sizeOf j

def jsArrDisplay : List Json → String
  | [] => ""
  | [x] => jsArrElem x
  | x :: y :: rest => jsArrElem x ++ "," ++ jsArrDisplay (y :: rest)
termination_by l => sizeOf l
end

end Json

/-- Source: `new ApiError(message, status = 0, details = {})`: the error value the
client raises; `name` is the constant `'ApiError'` and is omitted. -/
structure ApiError where
  message : String
  status : Int := 0
  details : Json := Json.obj []

namespace ApiError

/-- Source: `get isNetworkError() { return this.status === 0 }` -/
def isNetworkError (e : ApiError) : Bool := e.status == 0

/-- Source: `get isClientError() { return this.status >= 400 && this.status < 500 }` -/
def isClientError (e : ApiError) : Bool :=
  decide (e.status ≥ 400) && decide (e.status < 500)

/-- Source: `get isServerError() { return this.status >= 500 }` -/
def isServerError (e : ApiError) : Bool := decide (e.status ≥ 500)

/-- Source: `get isTimeout() { return this.status === 408 }` -/
def isTimeout (e : ApiError) : Bool := e.status == 408

/-- Source: `get isRateLimit() { return this.status === 429 }` -/
def isRateLimit (e : ApiError) : Bool := e.status == 429

end ApiError

/-- One cache entry `{ data, timestamp }` as stored by `ApiClient.get`. -/
structure CacheEntry where
  data : Json
  timestamp : Int

/-- The module-global `const cache = new Map()`, as an association list in
insertion order. -/
abbrev Cache := List (String × CacheEntry)

namespace Cache

/-- Source: `cache.get(key)` (and `cache.has(key)` is `(get key).isSome`). -/
def get : Cache → String → Option CacheEntry
  | [], _ => none
  | (k, e) :: rest, key => if k = key then some e else get rest key

/-- Source: `cache.set(key, entry)`: overwrite in place when the key exists, append
otherwise (JS `Map.set` order semantics). -/
def set : Cache → String → CacheEntry → Cache
  | [], key, e => [(key, e)]
  | (k, v) :: rest, key, e =>
    if k = key then (k, e) :: rest else (k, v) :: set rest key e

/-- Source: `cache.delete(key)`. -/
def delete (c : Cache) (key : String) : Cache :=
  c.filter (fun kv => decide (kv.1 ≠ key))

theorem get_set_self (c : Cache) (k : String) (e : CacheEntry) :
    (c.set k e).get k = some e := by
  induction c with
  | nil => simp [set, get]
  | cons kv rest ih =>
    obtain ⟨k', e'⟩ := kv
    by_cases h : k' = k <;> simp [set, get, h, ih]

theorem get_delete_self (c : Cache) (k : String) :
    (c.delete k).get k = none := by
  induction c with
  | nil => rfl
  | cons kv rest ih =>
    obtain ⟨k', e'⟩ := kv
    by_cases h : k' = k <;> simp [delete, get, h, List.filter] at ih ⊢ <;>
      simpa [delete, List.filter] using ih

theorem get_delete_ne (c : Cache) (k k' : String) (h : k' ≠ k) :
    (c.delete k).get k' = c.get k' := by
  induction c with
  | nil => rfl
  | cons kv rest ih =>
    obtain ⟨k₀, e₀⟩ := kv
    by_cases hk : k₀ = k <;> by_cases hk' : k₀ = k' <;>
      simp_all [delete, get, List.filter]

end Cache

/-! ### ApiClient.request -/

/-- Caller-supplied `options` of `request(endpoint, options)`, restricted to
the pieces that determine the headers actually sent: `headers` is `some h`
when the caller's options object has a `headers` property and `none` when it
does not (`method`, `body`, ... do not interact with the headers). -/
structure RequestOptions where
  headers : Option (List (String × String)) := none

/-- True when the key occurs in the property list. -/
def keyMem (k : String) (l : List (String × String)) : Bool :=
  l.any (fun kv => kv.1 == k)

/-- JS object spread `{...a, ...b}` on string-valued records: the keys of `b`
override those of `a`. -/
def objSpread (a b : List (String × String)) : List (String × String) :=
  a.filter (fun kv => !(keyMem kv.1 b)) ++ b

/-- First-match property lookup on the (duplicate-free) results of
`objSpread`. -/
def propLookup : List (String × String) → String → Option String
  | [], _ => none
  | (k, v) :: rest, key => if k = key then some v else propLookup rest key

/-- The `headers` property of `config` as built by `request`:
`config = { headers: {'Content-Type': 'application/json', ...options.headers},
signal: ..., ...options }`. Because `...options` is spread last, an
`options.headers` property replaces the merged inner object wholesale; the
merged object survives only when the caller supplied no `headers`. -/
def sentHeaders (o : RequestOptions) : List (String × String) :=
  let merged :=
    objSpread [("Content-Type", "application/json")] (o.headers.getD [])
  match o.headers with
  | some h => h
  | none => merged

/-- How the single `fetch` of one `request` call resolves, as seen by the
`try`/`catch` of `request` (the network and the JS runtime are external to
the module):
* `success bodyParse` — the response arrived with `response.ok` true and
  `response.json()` on it gives `bodyParse` (parsed value or a parse-error
  message);
* `httpError status bodyParse` — the response arrived with `response.ok`
  false and the given status; `response.json()` gives `bodyParse`;
* `abortError` — `fetch` rejected with an `AbortError` because the timeout
  timer fired `controller.abort()` before completion;
* `failure msg` — `fetch` rejected with any other (transport-level) error
  whose `.message` is `msg`. -/
inductive FetchOutcome where
  | success (bodyParse : Except String Json)
  | httpError (status : Int) (bodyParse : Except String Json)
  | abortError
  | failure (msg : String)

/-- Outcome of `request`: the returned JSON or thrown `ApiError`, plus
whether `clearTimeout(timeoutId)` was executed on the taken path. -/
structure RequestResult where
  result : Except ApiError Json
  timerCleared : Bool

def networkErrorMessage : String := "Network error: Please check your connection"

/-- Message of the `ApiError` thrown on a non-ok response:
`errorData.message || ` &#96;`HTTP error! status: ${response.status}`&#96;.
The `||` takes the generic string whenever the `message` property is absent
or falsy; a truthy non-string value is coerced by the `Error` constructor. -/
def httpErrorMessage (status : Int) (errorData : Json) : String :=
  match errorData.getField "message" with
  | some v =>
    if v.jsTruthy then v.jsToDisplay else "HTTP error! status: " ++ toString status
  | none => "HTTP error! status: " ++ toString status

namespace ApiClient

/-- Source: `async request(endpoint, options = {})`, as a function of how its
`fetch` resolves. Path by path:
* ok response, body parses: `clearTimeout` then `return await response.json()`;
* ok response, body does not parse: `clearTimeout` ran on line 60, the
  rejection of `response.json()` reaches the `catch`, whose `AbortError` and
  `instanceof ApiError` tests fail, so the generic network `ApiError`
  (status 0, `details = {originalError: error.message}`) is thrown;
* non-ok response: `errorData = await response.json().catch(() => ({}))`,
  then `throw new ApiError(errorData.message || generic, response.status,
  errorData)`; the `catch` re-raises it unchanged (`instanceof ApiError`)
  after `clearTimeout`;
* `AbortError`: `catch` runs `clearTimeout` and throws
  `new ApiError('Request timeout', 408)`;
* other rejection: `catch` runs `clearTimeout` and throws the generic
  network `ApiError` with status 0. -/
def request (outcome : FetchOutcome) : RequestResult :=
  match outcome with
  | .success (.ok body) => ⟨.ok body, true⟩
  | .success (.error parseMsg) =>
    ⟨.error ⟨networkErrorMessage, 0, Json.obj [("originalError", Json.str parseMsg)]⟩, true⟩
  | .httpError status bodyParse =>
    let errorData := match bodyParse with | .ok v => v | .error _ => Json.obj []
    ⟨.error ⟨httpErrorMessage status errorData, status, errorData⟩, true⟩
  | .abortError => ⟨.error ⟨"Request timeout", 408, Json.obj []⟩, true⟩
  | .failure msg =>
    ⟨.error ⟨networkErrorMessage, 0, Json.obj [("originalError", Json.str msg)]⟩, true⟩

/-! ### ApiClient.get -/

/-- Outcome of `get`: its return/throw value, the cache after the call, and
whether `this.request` (a network call) was invoked. -/
structure GetOutcome where
  result : Except ApiError Json
  cache : Cache
  networkCalled : Bool

/-- The tail of `get` after the cache check: `const data = await
this.request(endpoint, {method: 'GET'})`, then `if (useCache)
cache.set(cacheKey, {data, timestamp: Date.now()})`, then `return data`. A
thrown error skips the `cache.set`. `net` is what `request` resolves to. -/
def getPastCache (cacheKey : String) (useCache : Bool) (now : Int)
    (net : Except ApiError Json) (c : Cache) : GetOutcome :=
  match net with
  | .ok data => ⟨.ok data, if useCache then c.set cacheKey ⟨data, now⟩ else c, true⟩
  | .error e => ⟨.error e, c, true⟩

/-- Source: `async get(endpoint, useCache = true)` with `CACHE_TTL` the
configured `ttl` and `Date.now()` the instant `now` (the two `Date.now()`
calls of one invocation are the same instant in this model). The cache block
runs only under `useCache && cache.has(cacheKey)`; a fresh entry
(`now - timestamp < ttl`) is returned as is, a stale one is deleted before
the request is issued. -/
def get (ttl now : Int) (net : Except ApiError Json) (endpoint : String)
    (useCache : Bool) (cache : Cache) : GetOutcome :=
  let cacheKey := "GET:" ++ endpoint
  match (if useCache then cache.get cacheKey else none) with
  | some entry =>
    if now - entry.timestamp < ttl then ⟨.ok entry.data, cache, false⟩
    else getPastCache cacheKey useCache now net (cache.delete cacheKey)
  | none => getPastCache cacheKey useCache now net cache

end ApiClient

/-! ### ApiClient.clearCache -/

/-- True when `sub` begins `l`. -/
def leadMatch : List Char → List Char → Bool
  | [], _ => true
  | _ :: _, [] => false
  | a :: as, b :: bs => a == b && leadMatch as bs

/-- True when `sub` occurs in `l` contiguously. -/
def hasSub (sub : List Char) : List Char → Bool
  | [] => sub.isEmpty
  | c :: rest => leadMatch sub (c :: rest) || hasSub sub rest

/-- JS `s.includes(sub)`: substring containment. -/
def strIncludes (s sub : String) : Bool := hasSub sub.data s.data

/-- Source: `clearCache(pattern = null)`. The `if (pattern)` test is JS
truthiness, so both the `null` default and the empty string fall to the
`cache.clear()` branch; a non-empty pattern deletes exactly the keys that
contain it. -/
def ApiClient.clearCache (pattern : Option String) (c : Cache) : Cache :=
  match pattern with
  | some p => if p = "" then [] else c.filter (fun kv => !(strIncludes kv.1 p))
  | none => []

/-! ### JSON.parse and validators.json -/

/-- JSON insignificant whitespace (also the common JS `trim` characters). -/
def isWs (c : Char) : Bool := c == ' ' || c == '\t' || c == '\n' || c == '\r'

def skipWs : List Char → List Char
  | [] => []
  | c :: rest => if isWs c then skipWs rest else c :: rest

def dropWsLead : List Char → List Char
  | [] => []
  | c :: rest => if isWs c then dropWsLead rest else c :: rest

/-- JS `s.trim()` (restricted to the ASCII whitespace of `isWs`). -/
def jsTrim (s : String) : String :=
  ⟨(dropWsLead (dropWsLead s.data).reverse).reverse⟩

/-- Longest leading run of decimal digits, and the rest. -/
def takeDigits : List Char → List Char × List Char
  | [] => ([], [])
  | c :: rest =>
    if c.isDigit then
      let (ds, r) := takeDigits rest
      (c :: ds, r)
    else ([], c :: rest)

def digitsToNat (ds : List Char) : Nat :=
  ds.foldl (fun acc c => acc * 10 + (c.toNat - 48)) 0

/-- Decode one escape character after a backslash in a JSON string literal
(`\u` sequences are outside the modelled fragment). -/
def escChar : Char → Option Char
  | '"' => some '"'
  | '\\' => some '\\'
  | '/' => some '/'
  | 'b' => some (Char.ofNat 8)
  | 'f' => some (Char.ofNat 12)
  | 'n' => some '\n'
  | 'r' => some '\r'
  | 't' => some '\t'
  | _ => none

/-- Parse the remainder of a JSON string literal, the opening quote already
consumed; yields the contents and what follows the closing quote. -/
def parseStringRest : List Char → Except String (List Char × List Char)
  | [] => .error "Unterminated string in JSON"
  | '"' :: rest => .ok ([], rest)
  | '\\' :: e :: rest =>
    match escChar e with
    | some c =>
      match parseStringRest rest with
      | .ok (content, r) => .ok (c :: content, r)
      | .error msg => .error msg
    | none => .error "Bad escaped character in JSON"
  | c :: rest =>
    match parseStringRest rest with
    | .ok (content, r) => .ok (c :: content, r)
    | .error msg => .error msg

/-- Parse a JSON number at the head of the input (integer fragment: an
optional minus sign and a digit run; fraction/exponent forms are outside the
modelled fragment). -/
def parseNum (cs : List Char) : Except String (Json × List Char) :=
  let (neg, body) := match cs with
    | '-' :: rest => (true, rest)
    | _ => (false, cs)
  match takeDigits body with
  | ([], _) => .error "Unexpected token - in JSON"
  | (ds, r) =>
    match r with
    | '.' :: _ => .error "non-integer JSON numbers are outside the modelled fragment"
    | 'e' :: _ => .error "non-integer JSON numbers are outside the modelled fragment"
    | 'E' :: _ => .error "non-integer JSON numbers are outside the modelled fragment"
    | _ =>
      let n : Int := Int.ofNat (digitsToNat ds)
      .ok (Json.num (if neg then -n else n), r)

mutual
/-- One JSON value at the head of the input; `fuel` bounds the recursion
depth (any fuel at least the input length suffices). -/
def parseVal : Nat → List Char → Except String (Json × List Char)
  | 0, _ => .error "JSON nesting exceeds fuel"
  | Nat.succ fuel, cs =>
    match skipWs cs with
    | [] => .error "Unexpected end of JSON input"
    | 'n' :: 'u' :: 'l' :: 'l' :: rest => .ok (Json.null, rest)
    | 't' :: 'r' :: 'u' :: 'e' :: rest => .ok (Json.bool true, rest)
    | 'f' :: 'a' :: 'l' :: 's' :: 'e' :: rest => .ok (Json.bool false, rest)
    | '"' :: rest =>
      match parseStringRest rest with
      | .ok (content, r) => .ok (Json.str ⟨content⟩, r)
      | .error msg => .error msg
    | '[' :: rest =>
      match skipWs rest with
      | ']' :: r => .ok (Json.arr [], r)
      | r =>
        match parseArrItems fuel r with
        | .ok (elems, r2) => .ok (Json.arr elems, r2)
        | .error msg => .error msg
    | '\x7b' :: rest =>
      match skipWs rest with
      | '\x7d' :: r => .ok (Json.obj [], r)
      | r =>
        match parseObjItems fuel r with
        | .ok (fields, r2) => .ok (Json.obj fields, r2)
        | .error msg => .error msg
    | c :: rest =>
      if c == '-' || c.isDigit then parseNum (c :: rest)
      else .error ("Unexpected token " ++ String.singleton c ++ " in JSON")

/-- Comma-separated values up to the closing bracket of an array. -/
def parseArrItems : Nat → List Char → Except String (List Json × List Char)
  | 0, _ => .error "JSON nesting exceeds fuel"
  | Nat.succ fuel, cs =>
    match parseVal fuel cs with
    | .error msg => .error msg
    | .ok (v, rest) =>
      match skipWs rest with
      | ',' :: r =>
        match parseArrItems fuel r with
        | .ok (elems, r2) => .ok (v :: elems, r2)
        | .error msg => .error msg
      | ']' :: r => .ok ([v], r)
      | _ => .error "Expected , or ] after JSON array element"

/-- Comma-separated `"key": value` pairs up to the closing brace of an
object. -/
def parseObjItems : Nat → List Char → Except String (List (String × Json) × List Char)
  | 0, _ => .error "JSON nesting exceeds fuel"
  | Nat.succ fuel, cs =>
    match skipWs cs with
    | '"' :: rest =>
      match parseStringRest rest with
      | .error msg => .error msg
      | .ok (key, r1) =>
        match skipWs r1 with
        | ':' :: r2 =>
          match parseVal fuel r2 with
          | .error msg => .error msg
          | .ok (v, r3) =>
            match skipWs r3 with
            | ',' :: r4 =>
              match parseObjItems fuel r4 with
              | .ok (fields, r5) => .ok ((⟨key⟩, v) :: fields, r5)
              | .error msg => .error msg
            | '\x7d' :: r4 => .ok ([(⟨key⟩, v)], r4)
            | _ => .error "Expected , or end of object after JSON member"
        | _ => .error "Expected : after JSON object key"
    | _ => .error "Expected string key in JSON object"
end

/-- Model of the JS builtin `JSON.parse` on the fragment described above:
one value, optionally surrounded by whitespace, consuming the whole input. -/
def jsonParse (s : String) : Except String Json :=
  match parseVal (s.length + 1) s.data with
  | .error msg => .error msg
  | .ok (v, rest) =>
    match skipWs rest with
    | [] => .ok v
    | c :: _ => .error ("Unexpected token " ++ String.singleton c ++ " after JSON value")

/-- Per `typeof parsed !== 'object' || parsed === null || Array.isArray(parsed)`:
the parsed value passes exactly when it is an object. -/
def isJsObject : Json → Bool
  | .obj _ => true
  | _ => false

namespace validators

/-- Source: `validators.json(jsonString, fieldName)`. Empty or
whitespace-only input returns `null` (modelled `ok none`). Otherwise
`JSON.parse` runs inside a `try` whose `catch` wraps ANY thrown message —
including the function's own "must be a valid JSON object" complaint for a
parsed non-object — in "`fieldName` contains invalid JSON: ...". A parsed
object is returned. -/
def json (jsonString fieldName : String) : Except String (Option Json) :=
  if jsonString == "" || jsTrim jsonString == "" then .ok none
  else
    match jsonParse jsonString with
    | .error e => .error (fieldName ++ " contains invalid JSON: " ++ e)
    | .ok parsed =>
      if isJsObject parsed then .ok (some parsed)
      else
        .error (fieldName ++ " contains invalid JSON: " ++
          (fieldName ++ " must be a valid JSON object"))

end validators

/-! ### Auxiliary lemmas -/

theorem hasSub_nil (l : List Char) : hasSub [] l = true := by
  cases l <;> simp [hasSub, leadMatch, List.isEmpty]

theorem strIncludes_empty (s : String) : strIncludes s "" = true :=
  hasSub_nil s.data

/-! ### Claims -/

/-- C1: with `useCache = true` and an entry stored under `"GET:" + endpoint`
with timestamp `t`, at elapsed time `now - t`: below the TTL the identical
stored value is returned, the cache untouched and no network call issued; at
or above the TTL the entry is deleted before delegating to `request`, so on
success the key holds the fresh data with refreshed timestamp `now`, and on
failure the key is absent (a true miss). The stale value is never the
result. -/
theorem cache_ttl_invariant (ttl now t : Int) (endpoint : String) (v : Json)
    (net : Except ApiError Json) (cache : Cache)
    (hlook : cache.get ("GET:" ++ endpoint) = some ⟨v, t⟩) :
    (now - t < ttl →
      ApiClient.get ttl now net endpoint true cache = ⟨.ok v, cache, false⟩) ∧
    (now - t ≥ ttl →
      (ApiClient.get ttl now net endpoint true cache).networkCalled = true ∧
      (ApiClient.get ttl now net endpoint true cache).result = net ∧
      (∀ d, net = .ok d →
        (ApiClient.get ttl now net endpoint true cache).cache.get ("GET:" ++ endpoint) =
          some ⟨d, now⟩) ∧
      (∀ e, net = .error e →
        (ApiClient.get ttl now net endpoint true cache).cache.get ("GET:" ++ endpoint) =
          none)) := by
  constructor
  · intro hfresh
    simp [ApiClient.get, hlook, hfresh]
  · intro hstale
    have hnot : ¬(now - t < ttl) := by omega
    refine ⟨?_, ?_, ?_, ?_⟩
    · cases net <;> simp [ApiClient.get, ApiClient.getPastCache, hlook, hnot]
    · cases net <;> simp [ApiClient.get, ApiClient.getPastCache, hlook, hnot]
    · rintro d rfl
      simp [ApiClient.get, ApiClient.getPastCache, hlook, hnot, Cache.get_set_self]
    · rintro e rfl
      simp [ApiClient.get, ApiClient.getPastCache, hlook, hnot, Cache.get_delete_self]

/-- C1 witness: a concrete fresh hit (ttl 10, entry age 5) returns the stored
value with no network call and the cache unchanged. -/
theorem cache_ttl_invariant_witness :
    ApiClient.get 10 5 (.ok Json.null) "/a" true [("GET:/a", ⟨Json.bool true, 0⟩)] =
      ⟨.ok (Json.bool true), [("GET:/a", ⟨Json.bool true, 0⟩)], false⟩ :=
  (cache_ttl_invariant 10 5 0 "/a" (Json.bool true) (.ok Json.null)
    [("GET:/a", ⟨Json.bool true, 0⟩)] rfl).1 (by decide)

/-- C2: evaluating the header construction of `request` shows the bug: with
caller-supplied `options.headers = {"X-Custom": "1"}` (no Content-Type), the
trailing `...options` spread in the `config` literal replaces the merged
header object wholesale, so the sent headers carry NO `Content-Type` — the
default survives only when the caller supplies no `headers` at all. -/
theorem headers_clobbered_concrete :
    sentHeaders ⟨some [("X-Custom", "1")]⟩ = [("X-Custom", "1")] ∧
    propLookup (sentHeaders ⟨some [("X-Custom", "1")]⟩) "Content-Type" = none ∧
    propLookup (sentHeaders ⟨none⟩) "Content-Type" = some "application/json" :=
  ⟨rfl, rfl, rfl⟩

/-- C3 counterexample: on a 500 response whose body is `{"message": ""}`,
the `message` field IS present (the empty string), yet
`errorData.message || generic` takes the generic branch because `""` is
falsy: the raised message is `"HTTP error! status: 500"`, not the present
field value `""` — the claim as stated fails. -/
theorem http_error_message_counterexample :
    (Json.obj [("message", Json.str "")]).getField "message" = some (Json.str "") ∧
    (ApiClient.request (.httpError 500 (.ok (Json.obj [("message", Json.str "")])))).result =
      .error ⟨"HTTP error! status: 500", 500, Json.obj [("message", Json.str "")]⟩ ∧
    "HTTP error! status: 500" ≠ "" :=
  ⟨rfl, rfl, by decide⟩

/-- C3 (amended): for every non-2xx response, the raised `ApiError` has the
response's status and the parsed body as `details` (the empty object when
the body is not valid JSON, with no secondary error); its message is the
body's `message` field when that field is present with a truthy value (e.g.
a non-empty string), and otherwise — field absent, body unparsable, or field
present but falsy — the generic `"HTTP error! status: N"`. -/
theorem http_error_response_amended (status : Int) (bodyParse : Except String Json) :
    (∀ e, bodyParse = .error e →
      (ApiClient.request (.httpError status bodyParse)).result =
        .error ⟨"HTTP error! status: " ++ toString status, status, Json.obj []⟩) ∧
    (∀ v m, bodyParse = .ok v → v.getField "message" = some (Json.str m) → m ≠ "" →
      (ApiClient.request (.httpError status bodyParse)).result = .error ⟨m, status, v⟩) ∧
    (∀ v, bodyParse = .ok v → v.getField "message" = none →
      (ApiClient.request (.httpError status bodyParse)).result =
        .error ⟨"HTTP error! status: " ++ toString status, status, v⟩) ∧
    (∀ v fv, bodyParse = .ok v → v.getField "message" = some fv → fv.jsTruthy = false →
      (ApiClient.request (.httpError status bodyParse)).result =
        .error ⟨"HTTP error! status: " ++ toString status, status, v⟩) := by
  refine ⟨?_, ?_, ?_, ?_⟩
  · rintro e rfl
    simp [ApiClient.request, httpErrorMessage, Json.getField, Json.lookupLast]
  · rintro v m rfl hf hm
    simp [ApiClient.request, httpErrorMessage, hf, Json.jsTruthy, Json.jsToDisplay,
      bne_iff_ne, hm]
  · rintro v rfl hf
    simp [ApiClient.request, httpErrorMessage, hf]
  · rintro v fv rfl hf hfalsy
    simp [ApiClient.request, httpErrorMessage, hf, hfalsy]

/-- C3 witness: the spec's own example — a 429 response with body
`{"message": "slow down"}` raises status 429 with message `"slow down"` and
the body as details. -/
theorem http_error_response_amended_witness :
    (ApiClient.request (.httpError 429 (.ok (Json.obj [("message", Json.str "slow down")])))).result =
      .error ⟨"slow down", 429, Json.obj [("message", Json.str "slow down")]⟩ :=
  (http_error_response_amended 429 (.ok (Json.obj [("message", Json.str "slow down")]))).2.1
    (Json.obj [("message", Json.str "slow down")]) "slow down" rfl rfl (by decide)

/-- C4: a fetch aborted by the timeout timer makes `request` raise
`ApiError` with status 408 and message `"Request timeout"` (so `isTimeout`),
and `clearTimeout` runs on every exit path of `request`, success or
failure. -/
theorem timeout_behavior :
    (ApiClient.request .abortError).result = .error ⟨"Request timeout", 408, Json.obj []⟩ ∧
    ApiError.isTimeout ⟨"Request timeout", 408, Json.obj []⟩ = true ∧
    (∀ outcome, (ApiClient.request outcome).timerCleared = true) := by
  refine ⟨rfl, rfl, ?_⟩
  intro outcome
  cases outcome with
  | success bp => cases bp <;> rfl
  | httpError st bp => rfl
  | abortError => rfl
  | failure m => rfl

/-- C5: the derived predicates of `ApiError` are computed from `status`
exactly as the claim's characterisation: network ⇔ 0, client ⇔ 400 ≤ s < 500,
server ⇔ s ≥ 500, timeout ⇔ 408, rate-limit ⇔ 429. -/
theorem api_error_predicates (e : ApiError) :
    (e.isNetworkError = true ↔ e.status = 0) ∧
    (e.isClientError = true ↔ 400 ≤ e.status ∧ e.status < 500) ∧
    (e.isServerError = true ↔ 500 ≤ e.status) ∧
    (e.isTimeout = true ↔ e.status = 408) ∧
    (e.isRateLimit = true ↔ e.status = 429) := by
  simp [ApiError.isNetworkError, ApiError.isClientError, ApiError.isServerError,
    ApiError.isTimeout, ApiError.isRateLimit, ge_iff_le]

/-- C6: `validators.json` returns the no-value result `null` on empty or
whitespace-only input without error; on other input whose parse fails it
fails with a message embedding the parse error; on other input whose parse
succeeds it returns the parsed value exactly when that value is an object
(not array, null or scalar) and fails otherwise; in particular `"[1,2]"`
fails and `'{"a":1}'` returns the object `{a: 1}`. -/
theorem validate_json_object_spec :
    (∀ s f, jsTrim s = "" → validators.json s f = .ok none) ∧
    (∀ s f e, jsTrim s ≠ "" → jsonParse s = .error e →
      validators.json s f = .error (f ++ " contains invalid JSON: " ++ e)) ∧
    (∀ s f v, jsTrim s ≠ "" → jsonParse s = .ok v →
      (validators.json s f = .ok (some v) ↔ isJsObject v = true)) ∧
    validators.json "[1,2]" "X" =
      .error "X contains invalid JSON: X must be a valid JSON object" ∧
    validators.json "\x7b\"a\":1\x7d" "X" = .ok (some (Json.obj [("a", Json.num 1)])) := by
  refine ⟨?_, ?_, ?_, rfl, rfl⟩
  · intro s f h
    simp [validators.json, h]
  · intro s f e hne hp
    have hs0 : s ≠ "" := by
      rintro rfl
      exact hne rfl
    simp [validators.json, hs0, hne, hp]
  · intro s f v hne hp
    have hs0 : s ≠ "" := by
      rintro rfl
      exact hne rfl
    cases hobj : isJsObject v <;> simp [validators.json, hs0, hne, hp, hobj]

/-- C6 witness: whitespace-only input yields `null`; unparsable input fails
with the parse error embedded after "contains invalid JSON:". -/
theorem validate_json_object_spec_witness :
    validators.json "  " "X" = .ok none ∧
    validators.json "nope" "X" =
      .error ("X" ++ " contains invalid JSON: " ++ "Unexpected token n in JSON") :=
  ⟨validate_json_object_spec.1 "  " "X" rfl,
   validate_json_object_spec.2.1 "nope" "X" "Unexpected token n in JSON" (by decide) rfl⟩

/-- C7: `clearCache()` (pattern `null`) drops every entry; `clearCache(p)`
keeps an entry exactly when it was in the cache and its key does not contain
`p` as a substring — entries whose keys do not contain the pattern survive
unchanged, the rest are dropped. (For `p = ""` the JS truthiness test sends
the call to `cache.clear()`, which agrees: every key contains `""`.) -/
theorem clear_cache_spec (c : Cache) (p : String) :
    ApiClient.clearCache none c = [] ∧
    (∀ k e, (k, e) ∈ ApiClient.clearCache (some p) c ↔
      ((k, e) ∈ c ∧ strIncludes k p = false)) := by
  refine ⟨rfl, ?_⟩
  intro k e
  by_cases hp : p = ""
  · subst hp
    simp [ApiClient.clearCache, strIncludes_empty]
  · simp [ApiClient.clearCache, hp, List.mem_filter]

/-- C8: when the delegated `request` fails, `get` re-raises the very same
error, and the cache gains no entry for the key: it is either untouched or
has merely lost the expired entry that was deleted before the request. -/
theorem get_error_propagation (ttl now : Int) (endpoint : String) (useCache : Bool)
    (e : ApiError) (cache : Cache)
    (hnet : (ApiClient.get ttl now (.error e) endpoint useCache cache).networkCalled = true) :
    (ApiClient.get ttl now (.error e) endpoint useCache cache).result = .error e ∧
    ((ApiClient.get ttl now (.error e) endpoint useCache cache).cache = cache ∨
     (ApiClient.get ttl now (.error e) endpoint useCache cache).cache =
       cache.delete ("GET:" ++ endpoint)) := by
  cases hm : (if useCache then cache.get ("GET:" ++ endpoint) else none) with
  | none => simp [ApiClient.get, ApiClient.getPastCache, hm]
  | some entry =>
    by_cases hf : now - entry.timestamp < ttl
    · exfalso
      simp [ApiClient.get, hm, hf] at hnet
    · simp [ApiClient.get, ApiClient.getPastCache, hm, hf]

/-- C8 witness: a failing request on an empty cache with `useCache = true`
propagates the error and leaves the cache empty. -/
theorem get_error_propagation_witness :
    (ApiClient.get 10 0 (.error ⟨"boom", 500, Json.obj []⟩) "/a" true []).result =
      .error ⟨"boom", 500, Json.obj []⟩ ∧
    ((ApiClient.get 10 0 (.error ⟨"boom", 500, Json.obj []⟩) "/a" true []).cache = [] ∨
     (ApiClient.get 10 0 (.error ⟨"boom", 500, Json.obj []⟩) "/a" true []).cache =
       Cache.delete [] ("GET:" ++ "/a")) :=
  get_error_propagation 10 0 "/a" true ⟨"boom", 500, Json.obj []⟩ [] rfl

/-- C9: on a 2xx response whose body fails to parse as JSON, `request`
raises the transport-failure `ApiError`: status 0 (`isNetworkError`), the
generic network message, the parse error under `details.originalError` — not
an HTTP-classified error. -/
theorem success_body_parse_failure (parseMsg : String) :
    (ApiClient.request (.success (.error parseMsg))).result =
      .error ⟨networkErrorMessage, 0, Json.obj [("originalError", Json.str parseMsg)]⟩ ∧
    ApiError.isNetworkError
      ⟨networkErrorMessage, 0, Json.obj [("originalError", Json.str parseMsg)]⟩ = true ∧
    networkErrorMessage = "Network error: Please check your connection" :=
  ⟨rfl, rfl, rfl⟩

/-- C10: `get(endpoint, false)` performs no cache read, write or deletion:
for every cache state — expired entry under the key included — the outcome
is exactly the request's outcome, the cache mapping is returned unchanged,
and the network is always called. -/
theorem get_no_cache_frame (ttl now : Int) (net : Except ApiError Json)
    (endpoint : String) (cache : Cache) :
    ApiClient.get ttl now net endpoint false cache = ⟨net, cache, true⟩ := by
  cases net <;> rfl
